import Mathlib

/-!
Shallow embedding of the caching / orchestration core of the `leo` backend
(`backend/cache_manager.py`, `backend/optimizations.py`).

Python runtime values that occur as fingerprint arguments are modelled by
`PyVal`; time is modelled as an explicit rational-number parameter threaded
through the cache operations (the source reads `time.time()`); the cache
store `self.cache` (a Python dict) is modelled as an association list with
dict semantics (unique keys, in-place update, append on fresh insert).
-/

namespace Leo

/-- Model of the Python values passed as arguments to
`CacheManager._generate_key`: strings, ints, booleans, `None`, lists/tuples,
sets of strings (`setV` records the set's iteration order as a list), and
instances carrying a `__dict__` (`objV` records the class name, the
attribute dict, and the CPython identity `id(obj)`, since the source reads
`id(arg)`). -/
inductive PyVal where
  | strV (s : String)
  | intV (n : Int)
  | boolV (b : Bool)
  | noneV
  | listV (xs : List PyVal)
  | setV (elems : List String)
  | objV (cls : String) (attrs : List (String × PyVal)) (addr : Nat)

/-- JSON string escaping as performed by `json.dumps` (default
`ensure_ascii=True`): backslash and quote are escaped; other printable ASCII
passes through; remaining characters are emitted as `\uXXXX` (sufficient for
the ASCII strings this code base feeds to the key generator). -/
def jsonEscapeChar (c : Char) : String :=
  if c = '\\' then "\\\\"
  else if c = '"' then "\\\""
  else if 32 ≤ c.toNat ∧ c.toNat < 127 then String.mk [c]
  else
    let n := c.toNat % 65536
    let hexDig := fun (m : Nat) => if m < 10 then Char.ofNat (48 + m) else Char.ofNat (87 + m)
    String.mk ['\\', 'u', hexDig (n / 4096), hexDig (n / 256 % 16), hexDig (n / 16 % 16), hexDig (n % 16)]

/-- JSON rendering of a Python string, quotes included. -/
def jsonStr (s : String) : String :=
  "\"" ++ String.join (s.data.map jsonEscapeChar) ++ "\""

/-- Strict code-point comparison on strings, as used by Python's
`sort_keys=True` (which sorts dict keys with `<` on `str`). -/
def charListLt : List Char → List Char → Bool
  | _, [] => false
  | [], _ :: _ => true
  | a :: xs, b :: ys => a.toNat < b.toNat || (a = b && charListLt xs ys)

/-- String version of `charListLt`. -/
def strLt (a b : String) : Bool := charListLt a.data b.data

/-- Insert one key/value pair into a key-sorted list (insertion sort step). -/
def insertByKey (p : String × PyVal) : List (String × PyVal) → List (String × PyVal)
  | [] => [p]
  | q :: rest => if strLt p.1 q.1 then p :: q :: rest else q :: insertByKey p rest

/-- Sort an association list by key, modelling `sort_keys=True`. -/
def sortByKey (l : List (String × PyVal)) : List (String × PyVal) :=
  l.foldr insertByKey []

mutual
/-- Model of `json.dumps` (default separators `", "` and `": "`,
`sort_keys=True`) on a single value.  A Python `set` and any leftover object
are not JSON serializable: `json.dumps` raises `TypeError`, modelled as
`Option.none`. -/
def jsonOfVal : PyVal → Option String
  | .strV s => some (jsonStr s)
  | .intV n => some (toString n)
  | .boolV b => some (if b then "true" else "false")
  | .noneV => some "null"
  | .listV xs =>
      match jsonOfList xs with
      | some body => some ("[" ++ body ++ "]")
      | none => none
  | .setV _ => none
  | .objV _ _ _ => none

/-- Comma-joined JSON rendering of list elements. -/
def jsonOfList : List PyVal → Option String
  | [] => some ""
  | [x] => jsonOfVal x
  | x :: y :: rest =>
      match jsonOfVal x, jsonOfList (y :: rest) with
      | some sx, some srest => some (sx ++ ", " ++ srest)
      | _, _ => none
end

/-- JSON rendering of a (pre-sorted) string-keyed dict. -/
def jsonOfDict : List (String × PyVal) → Option String
  | [] => some ""
  | [(k, v)] => (jsonOfVal v).map (fun sv => jsonStr k ++ ": " ++ sv)
  | (k, v) :: q :: rest =>
      match jsonOfVal v, jsonOfDict (q :: rest) with
      | some sv, some srest => some (jsonStr k ++ ": " ++ sv ++ ", " ++ srest)
      | _, _ => none

/-- Model of the inner `serialize_arg` of `CacheManager._generate_key`:
an argument with a `__dict__` becomes the string
`f"{arg.__class__.__name__}:{id(arg)}"` (every object has `__class__`, so
the `str(type(arg))` branch is dead code); every other value passes through
unchanged. -/
def serialize_arg : PyVal → PyVal
  | .objV cls _ addr => .strV (cls ++ ":" ++ toString addr)
  | v => v

/-- Model of the positional-argument loop of `_generate_key`: the argument
at index 0 is skipped when it has both `__class__` and `__dict__` (the
heuristic for `self`), i.e. exactly when it is an `objV`; the rest are
passed through `serialize_arg`. -/
def serializedArgs : List PyVal → List PyVal
  | [] => []
  | a :: rest =>
      match a with
      | .objV _ _ _ => rest.map serialize_arg
      | _ => serialize_arg a :: rest.map serialize_arg

/-- Model of `key_string` in `_generate_key`: the `json.dumps` (with
`sort_keys=True`) of `{'args': serialized_args, 'kwargs': {...}}`.
`Option.none` models the `TypeError` raised by `json.dumps` on a
non-serializable argument (e.g. a set). -/
def keyString (args : List PyVal) (kwargs : List (String × PyVal)) : Option String :=
  let sargs := serializedArgs args
  let skw := sortByKey (kwargs.map (fun kv => (kv.1, serialize_arg kv.2)))
  match jsonOfList sargs, jsonOfDict skw with
  | some aj, some kj =>
      some ("\x7b\"args\": [" ++ aj ++ "], \"kwargs\": \x7b" ++ kj ++ "\x7d\x7d")
  | _, _ => none

/-! MD5, implemented over `Nat` with explicit reduction mod `2 ^ 32`
(the source hashes `key_string` with `hashlib.md5`). -/

/-- Addition of 32-bit words. -/
def add32 (a b : Nat) : Nat := (a + b) % 4294967296

/-- Bitwise complement of a 32-bit word. -/
def not32 (a : Nat) : Nat := 4294967295 - a

/-- Bitwise AND of 32-bit words, computed arithmetically bit by bit. -/
def band32 (x y : Nat) : Nat :=
  (List.range 32).foldl (fun acc i => acc + 2 ^ i * (x / 2 ^ i % 2 * (y / 2 ^ i % 2))) 0

/-- Bitwise OR of 32-bit words. -/
def bor32 (x y : Nat) : Nat :=
  (List.range 32).foldl
    (fun acc i => acc + 2 ^ i * (1 - (1 - x / 2 ^ i % 2) * (1 - y / 2 ^ i % 2))) 0

/-- Bitwise XOR of 32-bit words. -/
def bxor32 (x y : Nat) : Nat :=
  (List.range 32).foldl (fun acc i => acc + 2 ^ i * ((x / 2 ^ i % 2 + y / 2 ^ i % 2) % 2)) 0

/-- Left rotation of a 32-bit word; the shifted-out high bits and the
shifted-in low bits occupy disjoint positions, so `+` is their union. -/
def rotl32 (x s : Nat) : Nat := x * 2 ^ s % 4294967296 + x / 2 ^ (32 - s)

/-- Constant table of MD5 (floor(abs(sin(i+1)) * 2^32)). -/
def mdK : List Nat :=
  [3614090360, 3905402710, 606105819, 3250441966, 4118548399, 1200080426, 2821735955,
   4249261313, 1770035416, 2336552879, 4294925233, 2304563134, 1804603682, 4254626195,
   2792965006, 1236535329, 4129170786, 3225465664, 643717713, 3921069994, 3593408605,
   38016083, 3634488961, 3889429448, 568446438, 3275163606, 4107603335, 1163531501,
   2850285829, 4243563512, 1735328473, 2368359562, 4294588738, 2272392833, 1839030562,
   4259657740, 2763975236, 1272893353, 4139469664, 3200236656, 681279174, 3936430074,
   3572445317, 76029189, 3654602809, 3873151461, 530742520, 3299628645, 4096336452,
   1126891415, 2878612391, 4237533241, 1700485571, 2399980690, 4293915773, 2240044497,
   1873313359, 4264355552, 2734768916, 1309151649, 4149444226, 3174756917, 718787259,
   3951481745]

/-- Per-round shift amounts of MD5. -/
def mdS : List Nat :=
  [7, 12, 17, 22, 7, 12, 17, 22, 7, 12, 17, 22, 7, 12, 17, 22,
   5, 9, 14, 20, 5, 9, 14, 20, 5, 9, 14, 20, 5, 9, 14, 20,
   4, 11, 16, 23, 4, 11, 16, 23, 4, 11, 16, 23, 4, 11, 16, 23,
   6, 10, 15, 21, 6, 10, 15, 21, 6, 10, 15, 21, 6, 10, 15, 21]

/-- One MD5 operation (round `i` of 64) on state `(a, b, c, d)` with message
words `m`. -/
def md5Op (m : List Nat) (st : Nat × Nat × Nat × Nat) (i : Nat) : Nat × Nat × Nat × Nat :=
  let (a, b, c, d) := st
  let f :=
    if i < 16 then bor32 (band32 b c) (band32 (not32 b) d)
    else if i < 32 then bor32 (band32 d b) (band32 (not32 d) c)
    else if i < 48 then bxor32 (bxor32 b c) d
    else bxor32 c (bor32 b (not32 d))
  let g :=
    if i < 16 then i
    else if i < 32 then (5 * i + 1) % 16
    else if i < 48 then (3 * i + 5) % 16
    else 7 * i % 16
  let tmp := add32 (add32 (add32 a f) (mdK.getD i 0)) (m.getD g 0)
  (d, add32 b (rotl32 tmp (mdS.getD i 0)), b, c)

/-- Read the little-endian 32-bit word at byte offset `off`. -/
def wordAt (bytes : List Nat) (off : Nat) : Nat :=
  bytes.getD off 0 + 256 * bytes.getD (off + 1) 0 + 65536 * bytes.getD (off + 2) 0 +
    16777216 * bytes.getD (off + 3) 0

/-- Process one 64-byte chunk (starting at byte `64 * blk`) of the padded
message into the running MD5 state. -/
def md5Chunk (padded : List Nat) (st : Nat × Nat × Nat × Nat) (blk : Nat) :
    Nat × Nat × Nat × Nat :=
  let m := (List.range 16).map (fun j => wordAt padded (64 * blk + 4 * j))
  let (a0, b0, c0, d0) := st
  let (a, b, c, d) := (List.range 64).foldl (md5Op m) (a0, b0, c0, d0)
  (add32 a0 a, add32 b0 b, add32 c0 c, add32 d0 d)

/-- Little-endian byte decomposition of a value, `count` bytes. -/
def leBytes (v count : Nat) : List Nat :=
  (List.range count).map (fun i => v / 2 ^ (8 * i) % 256)

/-- Hexadecimal digit character (lowercase). -/
def hexDigit (n : Nat) : Char := if n < 10 then Char.ofNat (48 + n) else Char.ofNat (87 + n)

/-- Two-digit lowercase hex rendering of one byte. -/
def byteHex (b : Nat) : String := String.mk [hexDigit (b / 16), hexDigit (b % 16)]

/-- MD5 digest of a byte sequence, as the usual 32-character lowercase hex
string (little-endian byte order per state word). -/
def md5Bytes (msg : List Nat) : String :=
  let n := msg.length
  let zeros := (119 - n % 64) % 64
  let padded := msg ++ [128] ++ List.replicate zeros 0 ++ leBytes (8 * n % 2 ^ 64) 8
  let nb := padded.length / 64
  let (a, b, c, d) :=
    (List.range nb).foldl (md5Chunk padded) (1732584193, 4023233417, 2562383102, 271733878)
  String.join (((leBytes a 4 ++ leBytes b 4 ++ leBytes c 4 ++ leBytes d 4).map byteHex))

/-- MD5 of a string; the key strings produced here are ASCII, so UTF-8
encoding coincides with the code points. -/
def md5hex (s : String) : String := md5Bytes (s.data.map Char.toNat)

/-- Model of `CacheManager._generate_key(prefix, *args, **kwargs)`:
`f"{prefix}:{md5(key_string)}"`, or `Option.none` when `json.dumps` raises
`TypeError` on a non-serializable argument. -/
def generate_key (pre : String) (args : List PyVal) (kwargs : List (String × PyVal)) :
    Option String :=
  (keyString args kwargs).map (fun s => pre ++ ":" ++ md5hex s)

/-- Check that `pat` is an initial segment of `s` (character lists). -/
def startsWithL : List Char → List Char → Bool
  | [], _ => true
  | _ :: _, [] => false
  | p :: ps, c :: cs => p = c && startsWithL ps cs

/-- Check that `pat` occurs contiguously somewhere in `s` (character lists);
the empty pattern occurs in every string, as with Python's `in`. -/
def containsL (pat : List Char) : List Char → Bool
  | [] => pat.isEmpty
  | c :: cs => startsWithL pat (c :: cs) || containsL pat cs

/-- Model of the Python substring test `pat in key`. -/
def containsSub (key pat : String) : Bool := containsL pat.data key.data

/-! Embedding of the cache store (`CacheManager.cache`, a Python dict from
key to `{'value': ..., 'expires_at': ..., 'created_at': ...}`).  Time is an
explicit `ℚ` parameter standing for the value of `time.time()` at the call.
Stored values have type `Option β`, where `Option.none` models the Python
value `None`; `get` returns a Python value, so its first component is also
`Option β`, with `Option.none` standing both for "returned `None` because
absent/expired" and for "returned the stored value `None`" — exactly the
ambiguity present in the source. -/

/-- Model of one entry of `CacheManager.cache`. -/
structure Entry (β : Type) where
  value : Option β
  expires_at : ℚ
  created_at : ℚ
  deriving DecidableEq

/-- Model of the dict `CacheManager.cache`: an association list with unique
keys maintained by the operations below. -/
def Cache (β : Type) : Type := List (String × Entry β)

/-- First-match lookup, the model of `self.cache[key]` / `key in self.cache`. -/
def lookupC {β : Type} : Cache β → String → Option (Entry β)
  | [], _ => none
  | (k', e) :: rest, k => if k' = k then some e else lookupC rest k

/-- Deletion of a key (`del self.cache[key]`); removes every pair with that
key, which on the unique-key lists produced by the operations is the one
entry. -/
def eraseK {β : Type} (c : Cache β) (k : String) : Cache β :=
  c.filter (fun kv => kv.1 ≠ k)

/-- Dict update `self.cache[key] = entry`: replace in place when the key is
present (Python dicts keep the original insertion position), append when
fresh. -/
def setEntry {β : Type} : Cache β → String → Entry β → Cache β
  | [], k, e => [(k, e)]
  | (k', e') :: rest, k, e =>
      if k' = k then (k, e) :: rest else (k', e') :: setEntry rest k e

/-- Model of `CacheManager.get(key)` at time `t`: returns the Python value
the call returns together with the store after the call (an expired entry is
deleted as a side effect; a fresh entry's stored value is returned even when
it is `None`). -/
def get {β : Type} (c : Cache β) (k : String) (t : ℚ) : Option β × Cache β :=
  match lookupC c k with
  | some e => if t < e.expires_at then (e.value, c) else (none, eraseK c k)
  | none => (none, c)

/-- Model of `CacheManager.set(key, value, ttl)` at time `t` with default
TTL `dflt`.  The source computes `ttl = ttl or self.default_ttl`, so `None`
and `0` both fall back to the default while a negative `ttl` (truthy in
Python) is used as passed; `expires_at = time.time() + ttl`. -/
def set {β : Type} (c : Cache β) (k : String) (v : Option β) (ttl : Option ℚ) (dflt : ℚ)
    (t : ℚ) : Cache β :=
  let effTtl := match ttl with
    | none => dflt
    | some x => if x = 0 then dflt else x
  setEntry c k { value := v, expires_at := t + effTtl, created_at := t }

/-- Model of `CacheManager.get_or_set(key, async_func, ttl, ...)` at time
`t`: the awaited `async_func(*args, **kwargs)` is modelled by its outcome
`compute : Except ε (Option β)` (`Except.error` models a raised exception).
Returns the call's own outcome and the store afterwards. -/
def get_or_set {β ε : Type} (c : Cache β) (k : String) (compute : Except ε (Option β))
    (ttl : Option ℚ) (dflt : ℚ) (t : ℚ) : Except ε (Option β) × Cache β :=
  match get c k t with
  | (some v, c') => (Except.ok (some v), c')
  | (none, c') =>
      match compute with
      | Except.error e => (Except.error e, c')
      | Except.ok value => (Except.ok value, set c' k value ttl dflt t)

/-- Model of the wrapper produced by the `cached(prefix, ttl)` decorator:
generate the key from the call's arguments, then run the same
get / compute / set sequence as `get_or_set`; a `TypeError` raised during
key generation aborts the call before any cache access or computation. -/
inductive PyErr (ε : Type) where
  | typeError
  | raised (e : ε)

/-- Body of the `cached` decorator's `wrapper` at time `t`. -/
def cachedWrapper {β ε : Type} (pre : String) (ttl : ℚ) (args : List PyVal)
    (kwargs : List (String × PyVal)) (c : Cache β) (compute : Except ε (Option β))
    (dflt : ℚ) (t : ℚ) : Except (PyErr ε) (Option β) × Cache β :=
  match generate_key pre args kwargs with
  | none => (Except.error PyErr.typeError, c)
  | some k =>
      match get c k t with
      | (some v, c') => (Except.ok (some v), c')
      | (none, c') =>
          match compute with
          | Except.error e => (Except.error (PyErr.raised e), c')
          | Except.ok value => (Except.ok value, set c' k value (some ttl) dflt t)

/-- Embed the outcome of a plain cached call into the decorator's error
type (a raised compute exception propagates unchanged through the wrapper). -/
def liftPyErr {β ε : Type} (r : Except ε (Option β) × Cache β) :
    Except (PyErr ε) (Option β) × Cache β :=
  (match r.1 with
   | Except.ok v => Except.ok v
   | Except.error e => Except.error (PyErr.raised e), r.2)

/-- Model of `CacheManager.invalidate(pattern)`: collect the keys containing
`pattern` as a substring, delete each, return `len(keys_to_remove)`. -/
def invalidate {β : Type} (c : Cache β) (pat : String) : Cache β × Nat :=
  let keysToRemove := (c.map Prod.fst).filter (fun k => containsSub k pat)
  (keysToRemove.foldl eraseK c, keysToRemove.length)

/-- Model of `CacheManager.clear()`: empties the store; the function is
annotated `-> None` and has no `return`, so its Python return value is
`None` — modelled as `PyVal.noneV` so the return value can be compared with
the count the specification claims. -/
def clear {β : Type} (_c : Cache β) : Cache β × PyVal :=
  (([] : Cache β), PyVal.noneV)

/-! Embedding of `execute_parallel_tasks` (`backend/optimizations.py`).
Each submitted coroutine is modelled by its terminal behaviour `TaskRes`;
`run_with_semaphore` converts it to the `(task_name, value)` pair the source
builds (`None` on `asyncio.TimeoutError`, `{"error": str(e)}` on any other
exception), and the results dict collects one slot per name in gather
(submission) order. -/

/-- Terminal behaviour of one submitted task coroutine. -/
inductive TaskRes (α : Type) where
  | ok (v : α)
  | exc (msg : String)
  | timeout

/-- Python value stored in the results dict for one task. -/
inductive POut (α : Type) where
  | val (v : α)
  | pyNone
  | errDict (msg : String)
  deriving DecidableEq

/-- Model of the `try/except` body of `run_with_semaphore`: success passes
the value through, `asyncio.TimeoutError` yields `None`, any other raised
exception `e` yields `{"error": str(e)}`. -/
def outcomeOf {α : Type} : TaskRes α → POut α
  | .ok v => .val v
  | .timeout => .pyNone
  | .exc m => .errDict m

/-- Dict insertion `results[task_name] = task_result` (replace or append). -/
def dictInsert {α : Type} : List (String × POut α) → String → POut α → List (String × POut α)
  | [], k, v => [(k, v)]
  | (k', v') :: rest, k, v =>
      if k' = k then (k, v) :: rest else (k', v') :: dictInsert rest k v

/-- Model of `execute_parallel_tasks(tasks)`: every wrapped coroutine
returns a 2-tuple (no exception escapes `run_with_semaphore`), so
`asyncio.gather` yields the tuples in submission order and the result dict
is built by inserting each in turn. -/
def execute_parallel_tasks {α : Type} (tasks : List (String × TaskRes α)) :
    List (String × POut α) :=
  tasks.foldl (fun d nr => dictInsert d nr.1 (outcomeOf nr.2)) []

/-! Supporting lemmas. -/

theorem lookupC_setEntry {β : Type} (c : Cache β) (k : String) (e : Entry β) :
    lookupC (setEntry c k e) k = some e := by
  induction c with
  | nil => simp [setEntry, lookupC]
  | cons kv rest ih =>
      obtain ⟨k', e'⟩ := kv
      by_cases h : k' = k
      · simp [setEntry, h, lookupC]
      · simp [setEntry, h, lookupC, ih]

theorem lookupC_eraseK {β : Type} (c : Cache β) (k : String) :
    lookupC (eraseK c k) k = none := by
  induction c with
  | nil => simp [eraseK, lookupC]
  | cons kv rest ih =>
      obtain ⟨k', e'⟩ := kv
      by_cases h : k' = k
      · simpa [eraseK, h] using ih
      · simpa [eraseK, h, lookupC] using ih

theorem get_lookup_some {β : Type} (c : Cache β) (k : String) (t : ℚ) (e : Entry β)
    (hL : lookupC c k = some e) :
    get c k t = if t < e.expires_at then (e.value, c) else (none, eraseK c k) := by
  unfold get
  rw [hL]

theorem lookupC_set {β : Type} (c : Cache β) (k : String) (v : Option β) (ttl dflt t : ℚ)
    (hne : ttl ≠ 0) :
    lookupC (set c k v (some ttl) dflt t) k
      = some { value := v, expires_at := t + ttl, created_at := t } := by
  unfold set
  simp only [hne, if_false]
  exact lookupC_setEntry c k _

theorem get_set_fresh {β : Type} (c : Cache β) (k : String) (v : Option β)
    (ttl dflt t0 t : ℚ) (hne : ttl ≠ 0) (ht : t < t0 + ttl) :
    get (set c k v (some ttl) dflt t0) k t = (v, set c k v (some ttl) dflt t0) := by
  rw [get_lookup_some _ _ _ _ (lookupC_set c k v ttl dflt t0 hne), if_pos ht]

theorem get_set_expired {β : Type} (c : Cache β) (k : String) (v : Option β)
    (ttl dflt t0 t : ℚ) (hne : ttl ≠ 0) (ht : t0 + ttl ≤ t) :
    get (set c k v (some ttl) dflt t0) k t
      = (none, eraseK (set c k v (some ttl) dflt t0) k) := by
  rw [get_lookup_some _ _ _ _ (lookupC_set c k v ttl dflt t0 hne), if_neg (not_lt.mpr ht)]

theorem get_value_none {β : Type} (c : Cache β) (k : String) (t : ℚ) (e : Entry β)
    (hL : lookupC c k = some e) (hv : e.value = none) : (get c k t).1 = none := by
  rw [get_lookup_some c k t e hL]
  by_cases hlt : t < e.expires_at
  · simp [hlt, hv]
  · simp [hlt]

theorem get_none_stable {β : Type} (c : Cache β) (k : String) (t : ℚ)
    (hm : (get c k t).1 = none) :
    get ((get c k t).2) k t = (none, (get c k t).2) := by
  unfold get at *
  cases hL : lookupC c k with
  | none => simp [hL]
  | some e =>
      by_cases hlt : t < e.expires_at
      · simp [hL, hlt] at hm ⊢
        simp [hm]
      · simp [hL, hlt, lookupC_eraseK]

theorem get_hit_unchanged {β : Type} (c : Cache β) (k : String) (t : ℚ) (v : β)
    (hv : (get c k t).1 = some v) : (get c k t).2 = c := by
  cases hL : lookupC c k with
  | none => simp [get, hL] at hv
  | some e =>
      by_cases hlt : t < e.expires_at
      · simp [get, hL, hlt]
      · simp [get, hL, hlt] at hv

theorem get_none_always {β : Type} (c : Cache β) (k : String) (t : ℚ)
    (hm : (get c k t).1 = none) :
    ∀ t' : ℚ, (get ((get c k t).2) k t').1 = none := by
  intro t'
  cases hL : lookupC c k with
  | none =>
      have h2 : (get c k t).2 = c := by simp [get, hL]
      rw [h2]
      simp [get, hL]
  | some e =>
      by_cases hlt : t < e.expires_at
      · have h2 : (get c k t).2 = c := by simp [get, hL, hlt]
        have hv : e.value = none := by
          have := hm
          simp [get, hL, hlt] at this
          exact this
        rw [h2]
        exact get_value_none c k t' e hL hv
      · have h2 : (get c k t).2 = eraseK c k := by simp [get, hL, hlt]
        rw [h2]
        simp [get, lookupC_eraseK]

theorem gos_hit {β ε : Type} (c : Cache β) (k : String) (ttl : Option ℚ) (dflt t : ℚ)
    (v : β) (hv : (get c k t).1 = some v) (compute : Except ε (Option β)) :
    get_or_set c k compute ttl dflt t = (Except.ok (some v), (get c k t).2) := by
  rcases hg : get c k t with ⟨v1, c2⟩
  rw [hg] at hv
  simp only at hv
  subst hv
  simp [get_or_set, hg]

theorem gos_miss_ok {β ε : Type} (c : Cache β) (k : String) (ttl : Option ℚ) (dflt t : ℚ)
    (hm : (get c k t).1 = none) (value : Option β) :
    get_or_set c k (Except.ok value : Except ε (Option β)) ttl dflt t
      = (Except.ok value, set ((get c k t).2) k value ttl dflt t) := by
  rcases hg : get c k t with ⟨v1, c2⟩
  rw [hg] at hm
  simp only at hm
  subst hm
  simp [get_or_set, hg]

theorem gos_miss_err {β ε : Type} (c : Cache β) (k : String) (ttl : Option ℚ) (dflt t : ℚ)
    (hm : (get c k t).1 = none) (e : ε) :
    get_or_set c k (Except.error e : Except ε (Option β)) ttl dflt t
      = (Except.error e, (get c k t).2) := by
  rcases hg : get c k t with ⟨v1, c2⟩
  rw [hg] at hm
  simp only at hm
  subst hm
  simp [get_or_set, hg]

theorem foldl_eraseK {β : Type} (ks : List String) :
    ∀ c : Cache β, ks.foldl eraseK c = c.filter (fun kv => !(ks.contains kv.1)) := by
  induction ks with
  | nil =>
      intro c
      simp [List.foldl]
  | cons k ks ih =>
      intro c
      have h1 : (k :: ks).foldl eraseK c = ks.foldl eraseK (eraseK c k) := rfl
      rw [h1, ih (eraseK c k)]
      unfold eraseK
      rw [List.filter_filter]
      apply List.filter_congr
      intro kv _
      by_cases hk : kv.1 = k
      · simp [hk]
      · simp [hk]

theorem length_filter_map_fst {β : Type} (p : String → Bool) (c : Cache β) :
    ((c.map Prod.fst).filter p).length = (c.filter (fun kv => p kv.1)).length := by
  induction c with
  | nil => rfl
  | cons kv rest ih =>
      by_cases h : p kv.1
      · simp [h, ih]
      · simp [h, ih]

theorem dictInsert_fresh {α : Type} (d : List (String × POut α)) (k : String) (v : POut α)
    (h : ∀ p ∈ d, p.1 ≠ k) : dictInsert d k v = d ++ [(k, v)] := by
  induction d with
  | nil => rfl
  | cons q rest ih =>
      have hq : q.1 ≠ k := h q (by simp)
      obtain ⟨k', v'⟩ := q
      simp only [dictInsert, if_neg hq]
      rw [ih (fun p hp => h p (by simp [hp]))]
      simp

theorem ept_aux {α : Type} (tasks : List (String × TaskRes α)) :
    ∀ d : List (String × POut α),
      (tasks.map Prod.fst).Nodup → (∀ p ∈ d, p.1 ∉ tasks.map Prod.fst) →
      tasks.foldl (fun d nr => dictInsert d nr.1 (outcomeOf nr.2)) d
        = d ++ tasks.map (fun nr => (nr.1, outcomeOf nr.2)) := by
  induction tasks with
  | nil => intro d _ _; simp
  | cons nr rest ih =>
      intro d hnd hd
      obtain ⟨n, r⟩ := nr
      have h2 : (n :: rest.map Prod.fst).Nodup := hnd
      have hn : n ∉ rest.map Prod.fst := (List.nodup_cons.mp h2).1
      have hrest : (rest.map Prod.fst).Nodup := (List.nodup_cons.mp h2).2
      have hstep : dictInsert d n (outcomeOf r) = d ++ [(n, outcomeOf r)] := by
        apply dictInsert_fresh
        intro p hp heq
        apply hd p hp
        rw [List.map_cons, heq]
        exact List.mem_cons_self _ _
      have hd' : ∀ p ∈ d ++ [(n, outcomeOf r)], p.1 ∉ rest.map Prod.fst := by
        intro p hp hmem
        rcases List.mem_append.mp hp with hpd | hpn
        · exact hd p hpd (by rw [List.map_cons]; exact List.mem_cons_of_mem _ hmem)
        · have hp1 : p.1 = n := by
            have hpe : p = (n, outcomeOf r) := by simpa using hpn
            rw [hpe]
          exact hn (hp1 ▸ hmem)
      calc ((n, r) :: rest).foldl (fun d nr => dictInsert d nr.1 (outcomeOf nr.2)) d
          = rest.foldl (fun d nr => dictInsert d nr.1 (outcomeOf nr.2))
              (d ++ [(n, outcomeOf r)]) := by rw [List.foldl_cons, hstep]
        _ = (d ++ [(n, outcomeOf r)])
              ++ rest.map (fun nr => (nr.1, outcomeOf nr.2)) := ih _ hrest hd'
        _ = d ++ ((n, r) :: rest).map (fun nr => (nr.1, outcomeOf nr.2)) := by simp

/-! Claim theorems. -/

set_option maxRecDepth 10000 in
/-- C1: the claim demands that two calls of the key-derivation function with
canonically-equal argument lists produce the same key, with no dependence on
memory addresses.  The code instead serializes an object argument as
`f"{class}:{id(arg)}"`: two logically-equal objects of class `C` with empty
attribute dicts, differing only in their CPython identity (1000 vs 2000),
produce different cache keys. -/
theorem generate_key_depends_on_identity :
    generate_key "p" [PyVal.strV "x", PyVal.objV "C" [] 1000] []
      ≠ generate_key "p" [PyVal.strV "x", PyVal.objV "C" [] 2000] [] := by
  decide

/-- C2: write discipline of the cached-call composition.  A hit returns the
cached value with no dependence on (hence no invocation of) `compute` and
leaves the store exactly unchanged (zero writes); a miss whose compute
succeeds performs exactly the one write `set`; a miss whose compute raises
propagates the error unchanged with no write, and a repeated identical call
at any later time computes again; the `cached` decorator's wrapper runs the
identical sequence on the generated key, and aborts before any cache access
when key generation raises. -/
theorem cached_write_discipline {β ε : Type} (c : Cache β) (k : String) (ttl : Option ℚ)
    (dflt t : ℚ) :
    (∀ v : β, (get c k t).1 = some v →
      ∀ compute : Except ε (Option β),
        get_or_set c k compute ttl dflt t = (Except.ok (some v), c)) ∧
    (∀ value : Option β, (get c k t).1 = none →
      get_or_set c k (Except.ok value : Except ε (Option β)) ttl dflt t
        = (Except.ok value, set ((get c k t).2) k value ttl dflt t)) ∧
    (∀ e : ε, (get c k t).1 = none →
      get_or_set c k (Except.error e : Except ε (Option β)) ttl dflt t
        = (Except.error e, (get c k t).2)) ∧
    (∀ (e : ε) (value : Option β) (t' : ℚ), (get c k t).1 = none →
      get_or_set ((get_or_set c k (Except.error e : Except ε (Option β)) ttl dflt t).2) k
          (Except.ok value : Except ε (Option β)) ttl dflt t'
        = (Except.ok value,
           set ((get ((get_or_set c k (Except.error e : Except ε (Option β))
             ttl dflt t).2) k t').2) k value ttl dflt t')) ∧
    (∀ (pre : String) (ttlArg : ℚ) (args : List PyVal) (kwargs : List (String × PyVal))
        (compute : Except ε (Option β)) (k' : String),
      generate_key pre args kwargs = some k' →
      cachedWrapper pre ttlArg args kwargs c compute dflt t
        = liftPyErr (get_or_set c k' compute (some ttlArg) dflt t)) ∧
    (∀ compute : Except ε (Option β),
      ∀ (pre : String) (ttlArg : ℚ) (args : List PyVal) (kwargs : List (String × PyVal)),
        generate_key pre args kwargs = none →
        cachedWrapper pre ttlArg args kwargs c compute dflt t
          = (Except.error PyErr.typeError, c)) := by
  refine ⟨?_, ?_, ?_, ?_, ?_, ?_⟩
  · intro v hv compute
    rw [gos_hit c k ttl dflt t v hv compute, get_hit_unchanged c k t v hv]
  · intro value hm
    exact gos_miss_ok c k ttl dflt t hm value
  · intro e hm
    exact gos_miss_err c k ttl dflt t hm e
  · intro e value t' hm
    rw [gos_miss_err c k ttl dflt t hm e]
    exact gos_miss_ok ((get c k t).2) k ttl dflt t' (get_none_always c k t hm t') value
  · intro pre ttlArg args kwargs compute k' hk
    rcases hg : get c k' t with ⟨v1, c2⟩
    cases v1 with
    | some v => simp [cachedWrapper, hk, hg, get_or_set, liftPyErr]
    | none =>
        cases compute with
        | ok value => simp [cachedWrapper, hk, hg, get_or_set, liftPyErr]
        | error e => simp [cachedWrapper, hk, hg, get_or_set, liftPyErr]
  · intro compute pre ttlArg args kwargs hk
    simp [cachedWrapper, hk]

/-- Witness for C2 at concrete inputs: a hit (entry freshly set, a failing
compute is never consulted, store exactly unchanged), a successful miss
(exactly the one write), a failing miss (error propagated, store untouched),
and a retry one time unit after a failing miss that computes again. -/
theorem cached_write_discipline_witness :
    get_or_set (set ([] : Cache Nat) "k" (some 5) (some 10) 3600 0) "k"
        (Except.error () : Except Unit (Option Nat)) (some 10) 3600 0
      = (Except.ok (some 5), set ([] : Cache Nat) "k" (some 5) (some 10) 3600 0) ∧
    get_or_set ([] : Cache Nat) "k" (Except.ok (some 5) : Except Unit (Option Nat))
        (some 10) 3600 0
      = (Except.ok (some 5), set ((get ([] : Cache Nat) "k" 0).2) "k" (some 5) (some 10) 3600 0) ∧
    get_or_set ([] : Cache Nat) "k" (Except.error () : Except Unit (Option Nat)) (some 10) 3600 0
      = (Except.error (), (get ([] : Cache Nat) "k" 0).2) ∧
    get_or_set ((get_or_set ([] : Cache Nat) "k"
          (Except.error () : Except Unit (Option Nat)) (some 10) 3600 0).2) "k"
        (Except.ok (some 5) : Except Unit (Option Nat)) (some 10) 3600 1
      = (Except.ok (some 5),
         set ((get ((get_or_set ([] : Cache Nat) "k"
             (Except.error () : Except Unit (Option Nat)) (some 10) 3600 0).2) "k" 1).2)
           "k" (some 5) (some 10) 3600 1) :=
  ⟨(cached_write_discipline (β := Nat) (ε := Unit)
      (set ([] : Cache Nat) "k" (some 5) (some 10) 3600 0) "k" (some 10) 3600 0).1 5
      (by rw [get_set_fresh ([] : Cache Nat) "k" (some 5) 10 3600 0 0 (by norm_num)
          (by norm_num)]) (Except.error ()),
   (cached_write_discipline (β := Nat) (ε := Unit) ([] : Cache Nat) "k"
      (some 10) 3600 0).2.1 (some 5) rfl,
   (cached_write_discipline (β := Nat) (ε := Unit) ([] : Cache Nat) "k"
      (some 10) 3600 0).2.2.1 () rfl,
   (cached_write_discipline (β := Nat) (ε := Unit) ([] : Cache Nat) "k"
      (some 10) 3600 0).2.2.2.1 () (some 5) 1 rfl⟩

/-- C3: TTL correctness with lazy eviction.  After `set k v ttl` at time
`t0` with `0 < ttl`, a `get` at any time `t < t0 + ttl` returns the stored
value and leaves the store unchanged; once `t0 + ttl ≤ t`, `get` returns
absent (`None`) and deletes the expired entry as a side effect. -/
theorem ttl_lazy_eviction {β : Type} (c : Cache β) (k : String) (v : Option β)
    (ttl dflt t0 t : ℚ) (httl : 0 < ttl) :
    (t < t0 + ttl →
      get (set c k v (some ttl) dflt t0) k t = (v, set c k v (some ttl) dflt t0)) ∧
    (t0 + ttl ≤ t →
      get (set c k v (some ttl) dflt t0) k t
        = (none, eraseK (set c k v (some ttl) dflt t0) k)) := by
  have hne : ttl ≠ 0 := ne_of_gt httl
  exact ⟨get_set_fresh c k v ttl dflt t0 t hne, get_set_expired c k v ttl dflt t0 t hne⟩

/-- Witness for C3: with `ttl = 1` set at time 0, the value is returned at
time 1/2 and the entry is deleted at time 2. -/
theorem ttl_lazy_eviction_witness :
    (0 : ℚ) < 1 ∧
    get (set ([] : Cache Nat) "k" (some 7) (some 1) 3600 0) "k" (1 / 2)
      = (some 7, set ([] : Cache Nat) "k" (some 7) (some 1) 3600 0) ∧
    get (set ([] : Cache Nat) "k" (some 7) (some 1) 3600 0) "k" 2
      = (none, eraseK (set ([] : Cache Nat) "k" (some 7) (some 1) 3600 0) "k") :=
  ⟨by norm_num,
   (ttl_lazy_eviction ([] : Cache Nat) "k" (some 7) 1 3600 0 (1 / 2) (by norm_num)).1
     (by norm_num),
   (ttl_lazy_eviction ([] : Cache Nat) "k" (some 7) 1 3600 0 2 (by norm_num)).2
     (by norm_num)⟩

/-- C4 counterexample: the claim says `set` with non-positive TTL fails as a
caller error and stores nothing.  In the code, `set` with `ttl = -1` at time
0 succeeds and stores an entry with `expires_at = -1 < 0 = created_at`,
violating the claimed invariant `expiresAt > createdAt`. -/
theorem set_nonpositive_ttl_stores :
    set ([] : Cache Nat) "k" (some 1) (some (-1)) 3600 0
      = [("k", { value := some 1, expires_at := -1, created_at := 0 })] ∧
    (-1 : ℚ) < 0 := by
  constructor
  · have h1 : ((-1 : ℚ) = 0) = False := by norm_num
    simp [set, setEntry, h1]
  · norm_num

/-- C4 amended: `set` performs no TTL validation.  The expression
`ttl or self.default_ttl` replaces `0` (and `None`) by the default TTL, in
which case the stored entry does satisfy `expiresAt > createdAt` when the
default is positive; a negative `ttl` is truthy, so it is used as passed and
the stored entry has `expiresAt < createdAt` (it behaves as already
expired); no call to `set` ever raises. -/
theorem set_ttl_no_validation {β : Type} (c : Cache β) (k : String) (v : Option β)
    (ttl dflt t : ℚ) :
    (ttl < 0 →
      lookupC (set c k v (some ttl) dflt t) k
          = some { value := v, expires_at := t + ttl, created_at := t } ∧
        t + ttl < t) ∧
    set c k v (some 0) dflt t = set c k v none dflt t ∧
    (0 < dflt →
      lookupC (set c k v none dflt t) k
          = some { value := v, expires_at := t + dflt, created_at := t } ∧
        t < t + dflt) := by
  refine ⟨?_, ?_, ?_⟩
  · intro hneg
    have hne : ttl ≠ 0 := ne_of_lt hneg
    constructor
    · unfold set
      simp only [hne, if_false]
      exact lookupC_setEntry c k _
    · linarith
  · unfold set
    simp
  · intro hpos
    exact ⟨by unfold set; exact lookupC_setEntry c k _, by linarith⟩

/-- Witness for C4 (amended) at `ttl = -1`, `dflt = 3600`, `t = 0`. -/
theorem set_ttl_no_validation_witness :
    (lookupC (set ([] : Cache Nat) "k" (some 1) (some (-1)) 3600 0) "k"
        = some { value := some 1, expires_at := 0 + -1, created_at := 0 } ∧
      (0 : ℚ) + -1 < 0) ∧
    set ([] : Cache Nat) "k" (some 1) (some 0) 3600 0
      = set ([] : Cache Nat) "k" (some 1) none 3600 0 ∧
    (lookupC (set ([] : Cache Nat) "k" (some 1) none 3600 0) "k"
        = some { value := some 1, expires_at := 0 + 3600, created_at := 0 } ∧
      (0 : ℚ) < 0 + 3600) :=
  ⟨(set_ttl_no_validation ([] : Cache Nat) "k" (some 1) (-1) 3600 0).1 (by norm_num),
   (set_ttl_no_validation ([] : Cache Nat) "k" (some 1) (-1) 3600 0).2.1,
   (set_ttl_no_validation ([] : Cache Nat) "k" (some 1) (-1) 3600 0).2.2 (by norm_num)⟩

/-- C5: batch completeness with partial-failure isolation.  For tasks with
distinct names, `execute_parallel_tasks` returns exactly one outcome per
submitted task, in submission order, each task's slot holding its own
outcome (`{"error": str(e)}` for a raising task) independently of its
siblings. -/
theorem execute_parallel_tasks_complete {α : Type} (tasks : List (String × TaskRes α))
    (hnd : (tasks.map Prod.fst).Nodup) :
    execute_parallel_tasks tasks = tasks.map (fun nr => (nr.1, outcomeOf nr.2)) := by
  have h := ept_aux tasks [] hnd (by intro p hp; cases hp)
  simpa [execute_parallel_tasks] using h

/-- Witness for C5: in a 3-task batch where task 2 raises, tasks 1 and 3
still yield their success values and task 2 is recorded as a failure in its
own slot. -/
theorem execute_parallel_tasks_witness :
    execute_parallel_tasks
        [("t1", TaskRes.ok 1), ("t2", TaskRes.exc "boom"), ("t3", TaskRes.ok 3)]
      = [("t1", POut.val 1), ("t2", POut.errDict "boom"), ("t3", POut.val 3)] :=
  (execute_parallel_tasks_complete
      [("t1", TaskRes.ok 1), ("t2", TaskRes.exc "boom"), ("t3", TaskRes.ok 3)]
      (by decide)).trans (by decide)

/-- C7: `invalidate(pattern)` deletes exactly the entries whose key contains
`pattern` as a substring, leaves every other entry untouched (in order), and
returns the number of entries removed. -/
theorem invalidate_exact {β : Type} (c : Cache β) (pat : String) :
    invalidate c pat
      = (c.filter (fun kv => !(containsSub kv.1 pat)),
         (c.filter (fun kv => containsSub kv.1 pat)).length) := by
  unfold invalidate
  refine Prod.ext ?_ ?_
  · show (((c.map Prod.fst).filter (fun k => containsSub k pat)).foldl eraseK c)
        = c.filter (fun kv => !(containsSub kv.1 pat))
    rw [foldl_eraseK]
    apply List.filter_congr
    intro kv hkv
    by_cases hcs : containsSub kv.1 pat
    · have hmem : kv.1 ∈ (c.map Prod.fst).filter (fun k => containsSub k pat) :=
        List.mem_filter.mpr ⟨List.mem_map.mpr ⟨kv, hkv, rfl⟩, by simpa using hcs⟩
      have hct : ((c.map Prod.fst).filter (fun k => containsSub k pat)).contains kv.1 = true :=
        List.elem_iff.mpr hmem
      rw [hct]
      simp [hcs]
    · have hnmem : kv.1 ∉ (c.map Prod.fst).filter (fun k => containsSub k pat) := by
        intro hmem
        exact hcs (by simpa using (List.mem_filter.mp hmem).2)
      have hcf : ((c.map Prod.fst).filter (fun k => containsSub k pat)).contains kv.1
          = false := by
        cases hb : ((c.map Prod.fst).filter (fun k => containsSub k pat)).contains kv.1
        · rfl
        · exact absurd (List.elem_iff.mp hb) hnmem
      rw [hcf]
      simp [hcs]
  · show ((c.map Prod.fst).filter (fun k => containsSub k pat)).length
        = (c.filter (fun kv => containsSub kv.1 pat)).length
    exact length_filter_map_fst (fun k => containsSub k pat) c

/-- C8 counterexample: the claim says a set argument is sorted before
inclusion in the key.  In the code a Python `set` is not JSON serializable,
so `json.dumps` raises `TypeError` and no key is produced at all — for the
spec's own example arguments in either iteration order. -/
theorem generate_key_set_raises :
    generate_key "x" [PyVal.setV ["b", "a"]] [] = none ∧
    generate_key "x" [PyVal.setV ["a", "b"]] [] = none := by
  constructor <;> rfl

/-- C8 amended: a set argument is never sorted or included in a cache key:
for every operation name and keyword arguments, key generation with a set
argument (in any iteration order) fails with `TypeError` and yields no key
(the argument is non-canonicalizable). -/
theorem generate_key_set_not_canonicalized (pre : String) (xs : List String)
    (kwargs : List (String × PyVal)) :
    generate_key pre [PyVal.setV xs] kwargs = none := by
  unfold generate_key keyString
  simp [serializedArgs, serialize_arg, jsonOfList, jsonOfVal]

/-- C9 counterexample: the claim says `clear()` returns the number of
entries that were present.  On a store holding two entries, the code's
`clear()` (annotated `-> None`, no `return` statement) returns the Python
value `None`, not the count 2. -/
theorem clear_returns_none :
    (clear ([("a", { value := some 1, expires_at := 10, created_at := 0 }),
             ("b", { value := some 2, expires_at := 10, created_at := 0 })] : Cache Nat)).2
      = PyVal.noneV ∧
    PyVal.noneV ≠ PyVal.intV 2 ∧
    ([("a", ({ value := some 1, expires_at := 10, created_at := 0 } : Entry Nat)),
      ("b", { value := some 2, expires_at := 10, created_at := 0 })] : Cache Nat).length = 2 :=
  ⟨rfl, fun h => PyVal.noConfusion h, rfl⟩

/-- C9 amended: `clear()` deletes every entry — a subsequent `get` on any
key at any time returns absent — and returns `None`; the prior count is only
logged, not returned. -/
theorem clear_deletes_all {β : Type} (c : Cache β) :
    (clear c).1 = ([] : Cache β) ∧
    (clear c).2 = PyVal.noneV ∧
    ∀ (k : String) (t : ℚ), get ((clear c).1) k t = (none, ([] : Cache β)) := by
  refine ⟨rfl, rfl, ?_⟩
  intro k t
  simp [clear, get, lookupC]

/-- C10: a stored `None` is indistinguishable from absence.  When a miss's
compute returns `None`, `get_or_set` writes the entry; yet `get` on the
written store returns `None` at every time (fresh or expired), so every
subsequent identical call misses again and invokes its compute afresh — a
successfully computed `None` is never served from the cache. -/
theorem none_result_never_served {β ε : Type} (c : Cache β) (k : String) (ttl dflt t : ℚ)
    (hmiss : (get c k t).1 = none) (httl : ttl ≠ 0) (c2 : Cache β)
    (hc2 : c2 = set ((get c k t).2) k none (some ttl) dflt t) :
    get_or_set c k (Except.ok (none : Option β) : Except ε (Option β)) (some ttl) dflt t
      = (Except.ok none, c2) ∧
    lookupC c2 k = some { value := none, expires_at := t + ttl, created_at := t } ∧
    (∀ t' : ℚ, (get c2 k t').1 = none) ∧
    (∀ (t' : ℚ) (value : Option β),
      get_or_set c2 k (Except.ok value : Except ε (Option β)) (some ttl) dflt t'
        = (Except.ok value, set ((get c2 k t').2) k value (some ttl) dflt t')) ∧
    (∀ (t' : ℚ) (e : ε),
      get_or_set c2 k (Except.error e : Except ε (Option β)) (some ttl) dflt t'
        = (Except.error e, (get c2 k t').2)) := by
  subst hc2
  have hL : lookupC (set ((get c k t).2) k none (some ttl) dflt t) k
      = some { value := none, expires_at := t + ttl, created_at := t } :=
    lookupC_set _ k none ttl dflt t httl
  have hget : ∀ t' : ℚ,
      (get (set ((get c k t).2) k none (some ttl) dflt t) k t').1 = none :=
    fun t' => get_value_none _ k t' _ hL rfl
  refine ⟨gos_miss_ok c k (some ttl) dflt t hmiss none, hL, hget, ?_, ?_⟩
  · intro t' value
    exact gos_miss_ok _ k (some ttl) dflt t' (hget t') value
  · intro t' e
    exact gos_miss_err _ k (some ttl) dflt t' (hget t') e

/-- Witness for C10 at concrete inputs: the entry holding `None` is written
at time 0 with TTL 10, `get` at time 1 still reports absent, and a second
call at time 1 invokes its compute (both a succeeding and a failing one). -/
theorem none_result_never_served_witness :
    lookupC (set ((get ([] : Cache Nat) "k" 0).2) "k" none (some 10) 3600 0) "k"
      = some { value := none, expires_at := 0 + 10, created_at := 0 } ∧
    (get (set ((get ([] : Cache Nat) "k" 0).2) "k" none (some 10) 3600 0) "k" 1).1 = none ∧
    get_or_set (set ((get ([] : Cache Nat) "k" 0).2) "k" none (some 10) 3600 0) "k"
        (Except.ok (some 9) : Except Unit (Option Nat)) (some 10) 3600 1
      = (Except.ok (some 9),
         set ((get (set ((get ([] : Cache Nat) "k" 0).2) "k" none (some 10) 3600 0) "k" 1).2)
           "k" (some 9) (some 10) 3600 1) :=
  ⟨(none_result_never_served (β := Nat) (ε := Unit) ([] : Cache Nat) "k" 10 3600 0 rfl
      (by norm_num) _ rfl).2.1,
   (none_result_never_served (β := Nat) (ε := Unit) ([] : Cache Nat) "k" 10 3600 0 rfl
      (by norm_num) _ rfl).2.2.1 1,
   (none_result_never_served (β := Nat) (ε := Unit) ([] : Cache Nat) "k" 10 3600 0 rfl
      (by norm_num) _ rfl).2.2.2.1 1 (some 9)⟩

end Leo
